import Mathlib

/-!
Shallow embedding of the FRED proxy server (file `part_000` of the repository,
the authoritative variant of the duplicated server sources: its line numbers
are the ones the specification was written from).

Modelling conventions:
- JSON payloads are opaque: every definition is parameterised by a type `Json`.
- `JSON.parse` of an error body is modelled by an explicit parameter
  `parse : String → Option Json` (`none` = the parse throws).
- The upstream `fetch` call is modelled by an oracle giving the response the
  network would produce; the handler records the parameterised request it
  would have sent (`FredRequest`, the structured content of `fredURL`) so
  that "no fetch was performed" is expressible as `fetch = none`.
- The in-process `Map` used as cache is an association list read through
  first-match lookup; `Map.set` replaces the entry for an existing key.
- Times (`Date.now()`) are naturals in milliseconds.
- JavaScript `String.prototype.trim` is `jsTrim` (strip leading and trailing
  whitespace); a string is falsy exactly when it is empty.
-/

/-- JavaScript `s.trim()`: the string with leading and trailing whitespace
removed. -/
def jsTrim (s : String) : String :=
  String.mk (((s.data.dropWhile Char.isWhitespace).reverse.dropWhile Char.isWhitespace).reverse)

/-- Source line 19: the placeholder key the server compares against. -/
def PLACEHOLDER_API_KEY : String := "baf5a172a9b068e621dd4f80fc13dad2"

/-- Source line 18: `process.env.FRED_API_KEY || '<placeholder>'` — the
environment value when it is set and non-empty (JS `||` takes the fallback on
the empty string), otherwise the placeholder. -/
def FRED_API_KEY (env : Option String) : String :=
  match env with
  | none => PLACEHOLDER_API_KEY
  | some s => if s = "" then PLACEHOLDER_API_KEY else s

/-- Source line 42/113: the guard
`!FRED_API_KEY || FRED_API_KEY === PLACEHOLDER_API_KEY || FRED_API_KEY === 'YOUR_FALLBACK_KEY_IF_ANY'`. -/
def apiKeyInvalid (key : String) : Bool :=
  key == "" || key == PLACEHOLDER_API_KEY || key == "YOUR_FALLBACK_KEY_IF_ANY"

/-- Source line 23: `CACHE_DURATION = 5 * 60 * 1000` (milliseconds). -/
def CACHE_DURATION : Nat := 5 * 60 * 1000

/-- JS `x || 'none'` for an optional date string: `undefined` (and the empty
string, also falsy) becomes the sentinel `"none"`. -/
def dateKeyPart : Option String → String
  | none => "none"
  | some s => if s = "" then "none" else s

/-- Source lines 26–28: ``getCacheKey = (seriesId, startDate, endDate) =>
`${seriesId}-${startDate || 'none'}-${endDate || 'none'}` ``. -/
def getCacheKey (seriesId : String) (startDate endDate : Option String) : String :=
  seriesId ++ "-" ++ dateKeyPart startDate ++ "-" ++ dateKeyPart endDate

/-- A cache entry: `{ data, timestamp }` (source lines 87–90). -/
structure CacheEntry (Json : Type) where
  data : Json
  timestamp : Nat

/-- The `cache` Map (source line 22), as an association list read through
first-match lookup. -/
abbrev CacheStore (Json : Type) := List (String × CacheEntry Json)

/-- `cache.get(key)`. -/
def cget {Json : Type} (c : CacheStore Json) (k : String) : Option (CacheEntry Json) :=
  (c.find? (fun p => p.1 == k)).map Prod.snd

/-- `cache.set(key, entry)`: replaces any existing entry for `key`. -/
def cset {Json : Type} (c : CacheStore Json) (k : String) (e : CacheEntry Json) :
    CacheStore Json :=
  (k, e) :: c.filter (fun p => !(p.1 == k))

/-- The parameters of the `fredURL` the handler builds (source lines 58–61 and
134–136): series id, api key, sort order, and the optional observation window.
"A fetch was performed" is recorded as this request. -/
structure FredRequest where
  series_id : String
  api_key : String
  sort_order : String
  observation_start : Option String
  observation_end : Option String

/-- What `await fetch(fredURL)` comes back with: an ok response whose body is
the JSON `data`, a non-ok response with `status` and raw text `body`, or a
thrown transport error with `message`. -/
inductive FetchResponse (Json : Type) where
  | ok (data : Json)
  | httpError (status : Nat) (body : String)
  | transportError (message : String)

/-- The `details` field of a single-series upstream-error response (source
lines 73–78): the body parsed as JSON when `JSON.parse` succeeds, else the raw
text. -/
inductive ErrorDetails (Json : Type) where
  | parsed (value : Json)
  | raw (text : String)

/-- The response of the single-series handler `GET /api/fred/:seriesId`. -/
inductive SingleResp (Json : Type) where
  | badRequest
  | configError
  | okPayload (data : Json)
  | upstreamError (status : Nat) (error : String) (details : ErrorDetails Json)
  | internalError (error : String) (message : String)

/-- Result of one run of the single-series handler: the HTTP response, the
cache afterwards, and the upstream request that was issued (if any). -/
structure HandlerResult (Json : Type) where
  resp : SingleResp Json
  cache : CacheStore Json
  fetch : Option FredRequest

/-- A single-series request: route parameter `seriesId` and query parameters
`start_date`, `end_date`, `sort_order` (source lines 32–33; `none` models an
absent/undefined query parameter, so `sort_order` defaults to `"desc"` in the
handler). -/
structure SingleReq where
  seriesId : String
  start_date : Option String
  end_date : Option String
  sort_order : Option String

/-- Source lines 31–101: the `GET /api/fred/:seriesId` handler. `upstream` is
what `fetch(fredURL)` would return for this request. -/
def fredSeriesHandler {Json : Type} (parse : String → Option Json) (key : String)
    (cache : CacheStore Json) (now : Nat) (req : SingleReq)
    (upstream : FetchResponse Json) : HandlerResult Json :=
  if req.seriesId == "" then
    ⟨SingleResp.badRequest, cache, none⟩
  else if apiKeyInvalid key then
    ⟨SingleResp.configError, cache, none⟩
  else
    let cacheKey := getCacheKey req.seriesId req.start_date req.end_date
    let fredReq : FredRequest :=
      ⟨req.seriesId, key, req.sort_order.getD "desc", req.start_date, req.end_date⟩
    let doFetch : HandlerResult Json :=
      match upstream with
      | FetchResponse.ok data =>
          ⟨SingleResp.okPayload data, cset cache cacheKey ⟨data, now⟩, some fredReq⟩
      | FetchResponse.httpError status body =>
          ⟨SingleResp.upstreamError status
              ("Failed to fetch data from FRED for series " ++ req.seriesId)
              (match parse body with
               | some j => ErrorDetails.parsed j
               | none => ErrorDetails.raw body),
            cache, some fredReq⟩
      | FetchResponse.transportError msg =>
          ⟨SingleResp.internalError "Internal server error when fetching data" msg,
            cache, some fredReq⟩
    match cget cache cacheKey with
    | some entry =>
        if now - entry.timestamp < CACHE_DURATION then
          ⟨SingleResp.okPayload entry.data, cache, none⟩
        else doFetch
    | none => doFetch

/-- An element of the `series` array in the batch request body: a string, or
any non-string value (whose `.trim()` call throws a `TypeError`). -/
inductive BatchElem where
  | str (s : String)
  | nonString

/-- Whether an element is a non-string (its per-identifier task rejects). -/
def BatchElem.isNonString : BatchElem → Bool
  | BatchElem.str _ => false
  | BatchElem.nonString => true

/-- The `series` field of the batch request body: falsy/absent (`!series`
holds, covering `undefined`, `null`, `0`, `""`, `false`), a truthy value that
is not an array (on which line 107's `series.join(', ')` throws), or an
array of elements. -/
inductive BatchSeries where
  | missing
  | notArrayTruthy
  | arr (elems : List BatchElem)

/-- A per-identifier entry of the batch `results` object: the payload on a
cache hit or successful fetch (lines 129/145), the line-150 error object
`{ error, status, details }` on a non-ok upstream response (details is the
raw text — the multi path does not try `JSON.parse`), or the line-154 error
object `{ error, message }` when the fetch threw. -/
inductive BatchEntry (Json : Type) where
  | payload (data : Json)
  | fetchFailed (error : String) (status : Nat) (details : String)
  | fetchThrew (error : String) (message : String)

/-- The outcome of `POST /api/fred/multiple`: a 400, a 500 configuration
error, a 200 with the keyed `results` object, a 500 from the outer catch
(lines 160–166), or — `handlerThrew` — an exception escaping the async
handler before any response is sent (the `series.join` TypeError at line 107
is not inside any try/catch, so no HTTP response is produced). -/
inductive BatchResp (Json : Type) where
  | badRequest
  | configError
  | ok (results : List (String × BatchEntry Json))
  | internalError (error : String) (message : String)
  | handlerThrew (message : String)

/-- JS `results[seriesId] = v` on a plain object: replace the value if the
key is present, otherwise add the key. -/
def setResult {Json : Type} (rs : List (String × BatchEntry Json)) (id : String)
    (v : BatchEntry Json) : List (String × BatchEntry Json) :=
  if rs.any (fun p => p.1 == id) then
    rs.map (fun p => if p.1 == id then (id, v) else p)
  else rs ++ [(id, v)]

/-- Reading `results[b]`. -/
def lookupEntry {Json : Type} (rs : List (String × BatchEntry Json)) (b : String) :
    Option (BatchEntry Json) :=
  (rs.find? (fun p => p.1 == b)).map Prod.snd

/-- The state threaded through the batch fan-out: the shared `results`
object, the shared cache, and the upstream requests issued so far. -/
structure BatchState (Json : Type) where
  results : List (String × BatchEntry Json)
  cache : CacheStore Json
  fetches : List FredRequest

/-- Source lines 120–155: the per-identifier task of the batch handler.
`u` gives the upstream response for each (trimmed) series id; the batch path
hardcodes `sort_order=desc`. A non-string element's task throws at
`seriesIdUntrimmed.trim` before touching any shared state. -/
def batchStep {Json : Type} (key : String) (sd ed : Option String) (now : Nat)
    (u : String → FetchResponse Json) (st : BatchState Json) (elem : BatchElem) :
    BatchState Json :=
  match elem with
  | BatchElem.nonString => st
  | BatchElem.str s =>
    let seriesId := jsTrim s
    if seriesId == "" then st
    else
      let cacheKey := getCacheKey seriesId sd ed
      let fredReq : FredRequest := ⟨seriesId, key, "desc", sd, ed⟩
      let doFetch : BatchState Json :=
        match u seriesId with
        | FetchResponse.ok data =>
            ⟨setResult st.results seriesId (BatchEntry.payload data),
              cset st.cache cacheKey ⟨data, now⟩, st.fetches ++ [fredReq]⟩
        | FetchResponse.httpError status body =>
            ⟨setResult st.results seriesId
                (BatchEntry.fetchFailed ("Failed to fetch " ++ seriesId) status body),
              st.cache, st.fetches ++ [fredReq]⟩
        | FetchResponse.transportError msg =>
            ⟨setResult st.results seriesId
                (BatchEntry.fetchThrew ("Internal error fetching " ++ seriesId) msg),
              st.cache, st.fetches ++ [fredReq]⟩
      match cget st.cache cacheKey with
      | some entry =>
          if now - entry.timestamp < CACHE_DURATION then
            ⟨setResult st.results seriesId (BatchEntry.payload entry.data),
              st.cache, st.fetches⟩
          else doFetch
      | none => doFetch

/-- Result of one run of the batch handler. -/
structure BatchHandlerResult (Json : Type) where
  resp : BatchResp Json
  cache : CacheStore Json
  fetches : List FredRequest

/-- Source lines 105–167: the `POST /api/fred/multiple` handler. Line 107
logs `series.join(', ')` before validation, so a truthy non-array `series`
throws there. All per-identifier tasks run to completion even when one of
them rejects (`Promise.all` rejects, but sibling tasks are not cancelled),
so the final cache reflects every string element's work; the response is
then the outer catch's 500. -/
def fredMultipleHandler {Json : Type} (key : String) (series : BatchSeries)
    (sd ed : Option String) (cache : CacheStore Json) (now : Nat)
    (u : String → FetchResponse Json) : BatchHandlerResult Json :=
  match series with
  | BatchSeries.missing => ⟨BatchResp.badRequest, cache, []⟩
  | BatchSeries.notArrayTruthy => ⟨BatchResp.handlerThrew "series.join is not a function", cache, []⟩
  | BatchSeries.arr elems =>
    if elems.length == 0 then ⟨BatchResp.badRequest, cache, []⟩
    else if apiKeyInvalid key then ⟨BatchResp.configError, cache, []⟩
    else
      let fin := elems.foldl (batchStep key sd ed now u) ⟨[], cache, []⟩
      if elems.any BatchElem.isNonString then
        ⟨BatchResp.internalError "Internal server error while processing multiple series"
            "seriesIdUntrimmed.trim is not a function", fin.cache, fin.fetches⟩
      else ⟨BatchResp.ok fin.results, fin.cache, fin.fetches⟩

/-! Helper lemmas about the store, the results object and cache keys. -/

theorem string_data_append (s t : String) : (s ++ t).data = s.data ++ t.data := by
  cases s; cases t; rfl

theorem string_data_inj {s t : String} (h : s.data = t.data) : s = t := by
  cases s; cases t; exact congrArg String.mk h

theorem string_append_cancel {a b t : String} (h : a ++ t = b ++ t) : a = b := by
  apply string_data_inj
  have hd := congrArg String.data h
  rw [string_data_append, string_data_append] at hd
  exact List.append_cancel_right hd

theorem getCacheKey_inj {a b : String} {sd ed : Option String}
    (h : getCacheKey a sd ed = getCacheKey b sd ed) : a = b := by
  unfold getCacheKey at h
  have h1 : a ++ ("-" ++ dateKeyPart sd ++ "-" ++ dateKeyPart ed) =
      b ++ ("-" ++ dateKeyPart sd ++ "-" ++ dateKeyPart ed) := by
    apply string_data_inj
    have hd := congrArg String.data h
    simp only [string_data_append, List.append_assoc] at hd ⊢
    exact hd
  exact string_append_cancel h1

theorem cget_cset_self {Json : Type} (c : CacheStore Json) (k : String) (e : CacheEntry Json) :
    cget (cset c k e) k = some e := by
  simp [cget, cset, List.find?]

theorem find_filter_ne {Json : Type} (c : CacheStore Json) (k b : String) (h : b ≠ k) :
    List.find? (fun p => p.1 == b) (c.filter (fun p => !(p.1 == k))) =
    List.find? (fun p => p.1 == b) c := by
  induction c with
  | nil => rfl
  | cons p t ih =>
    by_cases hp : p.1 = k
    · have hfilter : (!(p.1 == k)) = false := by simp [hp]
      have hfind : (p.1 == b) = false := by simp [hp, Ne.symm h]
      simp [List.filter_cons, List.find?, hfilter, hfind, ih]
    · have hfilter : (!(p.1 == k)) = true := by simp [hp]
      by_cases hpb : p.1 = b
      · simp [List.filter_cons, List.find?, hfilter, hpb, h]
      · have hb2 : (p.1 == b) = false := by simp [hpb]
        simp [List.filter_cons, List.find?, hfilter, hb2, ih]

theorem cget_cset_ne {Json : Type} (c : CacheStore Json) (k : String) (e : CacheEntry Json)
    (b : String) (h : b ≠ k) : cget (cset c k e) b = cget c b := by
  unfold cget cset
  have hk : (k == b) = false := by simp [Ne.symm h]
  simp only [List.find?, hk]
  rw [find_filter_ne c k b h]

theorem map_fst_replace {Json : Type} (rs : List (String × BatchEntry Json)) (id : String)
    (v : BatchEntry Json) :
    (rs.map (fun p => if p.1 == id then (id, v) else p)).map Prod.fst = rs.map Prod.fst := by
  induction rs with
  | nil => rfl
  | cons p t ih =>
    rw [List.map_cons, List.map_cons, List.map_cons, ih]
    by_cases hp : p.1 = id
    · simp [hp]
    · simp [hp]

theorem any_fst_eq_mem {Json : Type} (rs : List (String × BatchEntry Json)) (id : String) :
    rs.any (fun p => p.1 == id) = true ↔ id ∈ rs.map Prod.fst := by
  simp [List.any_eq_true, List.mem_map]

theorem setResult_fst_of_mem {Json : Type} {rs : List (String × BatchEntry Json)} {id : String}
    (v : BatchEntry Json) (h : id ∈ rs.map Prod.fst) :
    (setResult rs id v).map Prod.fst = rs.map Prod.fst := by
  unfold setResult
  rw [if_pos ((any_fst_eq_mem rs id).2 h)]
  exact map_fst_replace rs id v

theorem setResult_fst_of_not_mem {Json : Type} {rs : List (String × BatchEntry Json)}
    {id : String} (v : BatchEntry Json) (h : id ∉ rs.map Prod.fst) :
    (setResult rs id v).map Prod.fst = rs.map Prod.fst ++ [id] := by
  unfold setResult
  have ha : rs.any (fun p => p.1 == id) = false := by
    cases hv : rs.any (fun p => p.1 == id) with
    | true => exact absurd ((any_fst_eq_mem rs id).1 hv) h
    | false => rfl
  rw [if_neg (by simp [ha])]
  rw [List.map_append]
  rfl

theorem setResult_mem_fst {Json : Type} (rs : List (String × BatchEntry Json)) (id : String)
    (v : BatchEntry Json) (b : String) :
    b ∈ (setResult rs id v).map Prod.fst ↔ b ∈ rs.map Prod.fst ∨ b = id := by
  by_cases h : id ∈ rs.map Prod.fst
  · rw [setResult_fst_of_mem v h]
    constructor
    · exact fun hb => Or.inl hb
    · rintro (hb | hb)
      · exact hb
      · exact hb ▸ h
  · rw [setResult_fst_of_not_mem v h]
    simp [List.mem_append]

theorem setResult_fst_nodup {Json : Type} {rs : List (String × BatchEntry Json)} {id : String}
    (v : BatchEntry Json) (h : (rs.map Prod.fst).Nodup) :
    ((setResult rs id v).map Prod.fst).Nodup := by
  by_cases hm : id ∈ rs.map Prod.fst
  · rw [setResult_fst_of_mem v hm]; exact h
  · rw [setResult_fst_of_not_mem v hm]
    refine h.append (List.nodup_singleton id) ?_
    intro x hx hx2
    simp at hx2
    exact hm (hx2 ▸ hx)

theorem find_replace_self {Json : Type} (rs : List (String × BatchEntry Json)) (id : String)
    (v : BatchEntry Json) (h : rs.any (fun p => p.1 == id) = true) :
    (rs.map (fun p => if p.1 == id then (id, v) else p)).find? (fun p => p.1 == id) =
      some (id, v) := by
  induction rs with
  | nil => simp at h
  | cons p t ih =>
    rw [List.map_cons]
    by_cases hp : p.1 = id
    · have hfp : (if p.1 == id then (id, v) else p) = (id, v) := by simp [hp]
      rw [hfp]
      exact List.find?_cons_of_pos _ (by simp)
    · have hb : (p.1 == id) = false := by simp [hp]
      have hfp : (if p.1 == id then (id, v) else p) = p := by simp [hb]
      rw [hfp, List.find?_cons_of_neg _ (by simp [hp])]
      simp only [List.any_cons, hb, Bool.false_or] at h
      exact ih h

theorem find_append_single_self {Json : Type} (rs : List (String × BatchEntry Json))
    (id : String) (v : BatchEntry Json) (h : rs.any (fun p => p.1 == id) = false) :
    (rs ++ [(id, v)]).find? (fun p => p.1 == id) = some (id, v) := by
  induction rs with
  | nil =>
    rw [List.nil_append]
    exact List.find?_cons_of_pos _ (by simp)
  | cons p t ih =>
    simp only [List.any_cons, Bool.or_eq_false_iff] at h
    rw [List.cons_append, List.find?_cons_of_neg _ (by simp [h.1])]
    exact ih h.2

theorem lookupEntry_setResult_self {Json : Type} (rs : List (String × BatchEntry Json))
    (id : String) (v : BatchEntry Json) :
    lookupEntry (setResult rs id v) id = some v := by
  unfold setResult lookupEntry
  cases ha : rs.any (fun p => p.1 == id) with
  | true =>
    rw [if_pos rfl, find_replace_self rs id v ha]
    rfl
  | false =>
    rw [if_neg (by simp), find_append_single_self rs id v ha]
    rfl

theorem find_replace_ne {Json : Type} (rs : List (String × BatchEntry Json)) (id : String)
    (v : BatchEntry Json) (b : String) (h : b ≠ id) :
    (rs.map (fun p => if p.1 == id then (id, v) else p)).find? (fun p => p.1 == b) =
      rs.find? (fun p => p.1 == b) := by
  induction rs with
  | nil => rfl
  | cons p t ih =>
    rw [List.map_cons]
    by_cases hp : p.1 = id
    · have hfp : (if p.1 == id then (id, v) else p) = (id, v) := by simp [hp]
      rw [hfp]
      rw [List.find?_cons_of_neg _ (by simp [Ne.symm h]),
        List.find?_cons_of_neg _ (by simp [hp, Ne.symm h])]
      exact ih
    · have hfp : (if p.1 == id then (id, v) else p) = p := by simp [hp]
      rw [hfp]
      by_cases hpb : p.1 = b
      · rw [List.find?_cons_of_pos _ (by simp [hpb]), List.find?_cons_of_pos _ (by simp [hpb])]
      · rw [List.find?_cons_of_neg _ (by simp [hpb]), List.find?_cons_of_neg _ (by simp [hpb])]
        exact ih

theorem find_append_single_ne {Json : Type} (rs : List (String × BatchEntry Json))
    (id : String) (v : BatchEntry Json) (b : String) (h : b ≠ id) :
    (rs ++ [(id, v)]).find? (fun p => p.1 == b) = rs.find? (fun p => p.1 == b) := by
  induction rs with
  | nil =>
    rw [List.nil_append, List.find?_cons_of_neg _ (by simp [Ne.symm h])]
  | cons p t ih =>
    by_cases hpb : p.1 = b
    · rw [List.cons_append, List.find?_cons_of_pos _ (by simp [hpb]),
        List.find?_cons_of_pos _ (by simp [hpb])]
    · rw [List.cons_append, List.find?_cons_of_neg _ (by simp [hpb]),
        List.find?_cons_of_neg _ (by simp [hpb])]
      exact ih

theorem lookupEntry_setResult_ne {Json : Type} (rs : List (String × BatchEntry Json))
    (id : String) (v : BatchEntry Json) (b : String) (h : b ≠ id) :
    lookupEntry (setResult rs id v) b = lookupEntry rs b := by
  unfold setResult lookupEntry
  cases ha : rs.any (fun p => p.1 == id) with
  | true => rw [if_pos rfl, find_replace_ne rs id v b h]
  | false => rw [if_neg (by simp), find_append_single_ne rs id v b h]

theorem lookupEntry_isSome_iff {Json : Type} (rs : List (String × BatchEntry Json))
    (b : String) : (lookupEntry rs b).isSome = true ↔ b ∈ rs.map Prod.fst := by
  unfold lookupEntry
  rw [Option.isSome_map', List.find?_isSome]
  simp [List.mem_map]

/-! Characterisations of one per-identifier batch task. -/

theorem batchStep_nonString {Json : Type} (key : String) (sd ed : Option String) (now : Nat)
    (u : String → FetchResponse Json) (st : BatchState Json) :
    batchStep key sd ed now u st BatchElem.nonString = st := rfl

theorem batchStep_blank {Json : Type} (key : String) (sd ed : Option String) (now : Nat)
    (u : String → FetchResponse Json) (st : BatchState Json) (s : String)
    (h : jsTrim s = "") :
    batchStep key sd ed now u st (BatchElem.str s) = st := by
  simp only [batchStep]
  rw [if_pos (by simp [h])]

theorem batchStep_str_results {Json : Type} (key : String) (sd ed : Option String) (now : Nat)
    (u : String → FetchResponse Json) (st : BatchState Json) (s : String)
    (h : ¬ jsTrim s = "") :
    ∃ v, (batchStep key sd ed now u st (BatchElem.str s)).results =
      setResult st.results (jsTrim s) v := by
  cases hc : cget st.cache (getCacheKey (jsTrim s) sd ed) with
  | some entry =>
    by_cases hf : now - entry.timestamp < CACHE_DURATION
    · exact ⟨BatchEntry.payload entry.data, by simp [batchStep, h, hc, hf]⟩
    · cases hu : u (jsTrim s) with
      | ok d => exact ⟨BatchEntry.payload d, by simp [batchStep, h, hc, hf, hu]⟩
      | httpError status body =>
        exact ⟨BatchEntry.fetchFailed ("Failed to fetch " ++ jsTrim s) status body,
          by simp [batchStep, h, hc, hf, hu]⟩
      | transportError msg =>
        exact ⟨BatchEntry.fetchThrew ("Internal error fetching " ++ jsTrim s) msg,
          by simp [batchStep, h, hc, hf, hu]⟩
  | none =>
    cases hu : u (jsTrim s) with
    | ok d => exact ⟨BatchEntry.payload d, by simp [batchStep, h, hc, hu]⟩
    | httpError status body =>
      exact ⟨BatchEntry.fetchFailed ("Failed to fetch " ++ jsTrim s) status body,
        by simp [batchStep, h, hc, hu]⟩
    | transportError msg =>
      exact ⟨BatchEntry.fetchThrew ("Internal error fetching " ++ jsTrim s) msg,
        by simp [batchStep, h, hc, hu]⟩

theorem batchStep_cache_shape {Json : Type} (key : String) (sd ed : Option String) (now : Nat)
    (u : String → FetchResponse Json) (st : BatchState Json) (e : BatchElem) :
    (batchStep key sd ed now u st e).cache = st.cache ∨
    ∃ s d, e = BatchElem.str s ∧ u (jsTrim s) = FetchResponse.ok d ∧
      (batchStep key sd ed now u st e).cache =
        cset st.cache (getCacheKey (jsTrim s) sd ed) ⟨d, now⟩ := by
  cases e with
  | nonString => exact Or.inl rfl
  | str s =>
    by_cases h : jsTrim s = ""
    · rw [batchStep_blank key sd ed now u st s h]
      exact Or.inl rfl
    · cases hc : cget st.cache (getCacheKey (jsTrim s) sd ed) with
      | some entry =>
        by_cases hf : now - entry.timestamp < CACHE_DURATION
        · exact Or.inl (by simp [batchStep, h, hc, hf])
        · cases hu : u (jsTrim s) with
          | ok d => exact Or.inr ⟨s, d, rfl, hu, by simp [batchStep, h, hc, hf, hu]⟩
          | httpError status body => exact Or.inl (by simp [batchStep, h, hc, hf, hu])
          | transportError msg => exact Or.inl (by simp [batchStep, h, hc, hf, hu])
      | none =>
        cases hu : u (jsTrim s) with
        | ok d => exact Or.inr ⟨s, d, rfl, hu, by simp [batchStep, h, hc, hu]⟩
        | httpError status body => exact Or.inl (by simp [batchStep, h, hc, hu])
        | transportError msg => exact Or.inl (by simp [batchStep, h, hc, hu])

theorem batchStep_fetches_shape {Json : Type} (key : String) (sd ed : Option String) (now : Nat)
    (u : String → FetchResponse Json) (st : BatchState Json) (e : BatchElem) :
    (batchStep key sd ed now u st e).fetches = st.fetches ∨
    ∃ s, e = BatchElem.str s ∧ (batchStep key sd ed now u st e).fetches =
      st.fetches ++ [⟨jsTrim s, key, "desc", sd, ed⟩] := by
  cases e with
  | nonString => exact Or.inl rfl
  | str s =>
    by_cases h : jsTrim s = ""
    · rw [batchStep_blank key sd ed now u st s h]
      exact Or.inl rfl
    · cases hc : cget st.cache (getCacheKey (jsTrim s) sd ed) with
      | some entry =>
        by_cases hf : now - entry.timestamp < CACHE_DURATION
        · exact Or.inl (by simp [batchStep, h, hc, hf])
        · cases hu : u (jsTrim s) with
          | ok d => exact Or.inr ⟨s, rfl, by simp [batchStep, h, hc, hf, hu]⟩
          | httpError status body => exact Or.inr ⟨s, rfl, by simp [batchStep, h, hc, hf, hu]⟩
          | transportError msg => exact Or.inr ⟨s, rfl, by simp [batchStep, h, hc, hf, hu]⟩
      | none =>
        cases hu : u (jsTrim s) with
        | ok d => exact Or.inr ⟨s, rfl, by simp [batchStep, h, hc, hu]⟩
        | httpError status body => exact Or.inr ⟨s, rfl, by simp [batchStep, h, hc, hu]⟩
        | transportError msg => exact Or.inr ⟨s, rfl, by simp [batchStep, h, hc, hu]⟩

theorem batchStep_preserves_other {Json : Type} (key : String) (sd ed : Option String)
    (now : Nat) (u : String → FetchResponse Json) (st : BatchState Json) (e : BatchElem)
    (b : String) (h : ∀ s, e = BatchElem.str s → jsTrim s ≠ b) :
    lookupEntry (batchStep key sd ed now u st e).results b = lookupEntry st.results b ∧
    cget (batchStep key sd ed now u st e).cache (getCacheKey b sd ed) =
      cget st.cache (getCacheKey b sd ed) := by
  cases e with
  | nonString => exact ⟨rfl, rfl⟩
  | str s =>
    have hs : jsTrim s ≠ b := h s rfl
    by_cases hblank : jsTrim s = ""
    · rw [batchStep_blank key sd ed now u st s hblank]
      exact ⟨rfl, rfl⟩
    · constructor
      · obtain ⟨v, hv⟩ := batchStep_str_results key sd ed now u st s hblank
        rw [hv, lookupEntry_setResult_ne st.results (jsTrim s) v b (Ne.symm hs)]
      · rcases batchStep_cache_shape key sd ed now u st (BatchElem.str s) with hcc | ⟨s2, d, he2, _, hcc⟩
        · rw [hcc]
        · cases he2
          rw [hcc]
          refine cget_cset_ne st.cache (getCacheKey (jsTrim s) sd ed) ⟨d, now⟩
            (getCacheKey b sd ed) ?_
          intro hk
          exact hs (getCacheKey_inj hk).symm

theorem batchStep_aligned {Json : Type} (key : String) (sd ed : Option String) (now : Nat)
    (u₁ u₂ : String → FetchResponse Json) (st₁ st₂ : BatchState Json) (b s : String)
    (hs : jsTrim s = b) (hb : u₁ b = u₂ b)
    (hc : cget st₁.cache (getCacheKey b sd ed) = cget st₂.cache (getCacheKey b sd ed))
    (hr : lookupEntry st₁.results b = lookupEntry st₂.results b) :
    lookupEntry (batchStep key sd ed now u₁ st₁ (BatchElem.str s)).results b =
      lookupEntry (batchStep key sd ed now u₂ st₂ (BatchElem.str s)).results b ∧
    cget (batchStep key sd ed now u₁ st₁ (BatchElem.str s)).cache (getCacheKey b sd ed) =
      cget (batchStep key sd ed now u₂ st₂ (BatchElem.str s)).cache (getCacheKey b sd ed) := by
  subst hs
  by_cases hblank : jsTrim s = ""
  · rw [batchStep_blank key sd ed now u₁ st₁ s hblank,
      batchStep_blank key sd ed now u₂ st₂ s hblank]
    exact ⟨hr, hc⟩
  · have hc2 := hc
    cases hc1 : cget st₁.cache (getCacheKey (jsTrim s) sd ed) with
    | some entry =>
      rw [hc1] at hc2
      by_cases hf : now - entry.timestamp < CACHE_DURATION
      · constructor
        · simp [batchStep, hblank, hc1, hc2.symm, hf, lookupEntry_setResult_self]
        · simp [batchStep, hblank, hc1, hc2.symm, hf, hc]
      · cases hu : u₁ (jsTrim s) with
        | ok d =>
          have hu2 : u₂ (jsTrim s) = FetchResponse.ok d := by rw [← hb, hu]
          constructor
          · simp [batchStep, hblank, hc1, hc2.symm, hf, hu, hu2, lookupEntry_setResult_self]
          · simp [batchStep, hblank, hc1, hc2.symm, hf, hu, hu2, cget_cset_self]
        | httpError status body =>
          have hu2 : u₂ (jsTrim s) = FetchResponse.httpError status body := by rw [← hb, hu]
          constructor
          · simp [batchStep, hblank, hc1, hc2.symm, hf, hu, hu2, lookupEntry_setResult_self]
          · simp [batchStep, hblank, hc1, hc2.symm, hf, hu, hu2, hc]
        | transportError msg =>
          have hu2 : u₂ (jsTrim s) = FetchResponse.transportError msg := by rw [← hb, hu]
          constructor
          · simp [batchStep, hblank, hc1, hc2.symm, hf, hu, hu2, lookupEntry_setResult_self]
          · simp [batchStep, hblank, hc1, hc2.symm, hf, hu, hu2, hc]
    | none =>
      rw [hc1] at hc2
      cases hu : u₁ (jsTrim s) with
      | ok d =>
        have hu2 : u₂ (jsTrim s) = FetchResponse.ok d := by rw [← hb, hu]
        constructor
        · simp [batchStep, hblank, hc1, hc2.symm, hu, hu2, lookupEntry_setResult_self]
        · simp [batchStep, hblank, hc1, hc2.symm, hu, hu2, cget_cset_self]
      | httpError status body =>
        have hu2 : u₂ (jsTrim s) = FetchResponse.httpError status body := by rw [← hb, hu]
        constructor
        · simp [batchStep, hblank, hc1, hc2.symm, hu, hu2, lookupEntry_setResult_self]
        · simp [batchStep, hblank, hc1, hc2.symm, hu, hu2, hc]
      | transportError msg =>
        have hu2 : u₂ (jsTrim s) = FetchResponse.transportError msg := by rw [← hb, hu]
        constructor
        · simp [batchStep, hblank, hc1, hc2.symm, hu, hu2, lookupEntry_setResult_self]
        · simp [batchStep, hblank, hc1, hc2.symm, hu, hu2, hc]

theorem batchFold_isolation {Json : Type} (key : String) (sd ed : Option String) (now : Nat)
    (u₁ u₂ : String → FetchResponse Json) (b : String) (hb : u₁ b = u₂ b) :
    ∀ (elems : List BatchElem) (st₁ st₂ : BatchState Json),
      cget st₁.cache (getCacheKey b sd ed) = cget st₂.cache (getCacheKey b sd ed) →
      lookupEntry st₁.results b = lookupEntry st₂.results b →
      lookupEntry (elems.foldl (batchStep key sd ed now u₁) st₁).results b =
        lookupEntry (elems.foldl (batchStep key sd ed now u₂) st₂).results b ∧
      cget (elems.foldl (batchStep key sd ed now u₁) st₁).cache (getCacheKey b sd ed) =
        cget (elems.foldl (batchStep key sd ed now u₂) st₂).cache (getCacheKey b sd ed) := by
  intro elems
  induction elems with
  | nil => exact fun st₁ st₂ hc hr => ⟨hr, hc⟩
  | cons e rest ih =>
    intro st₁ st₂ hc hr
    rw [List.foldl_cons, List.foldl_cons]
    by_cases he : ∃ s, e = BatchElem.str s ∧ jsTrim s = b
    · obtain ⟨s, rfl, hs⟩ := he
      have h2 := batchStep_aligned key sd ed now u₁ u₂ st₁ st₂ b s hs hb hc hr
      exact ih _ _ h2.2 h2.1
    · push_neg at he
      have p₁ := batchStep_preserves_other key sd ed now u₁ st₁ e b he
      have p₂ := batchStep_preserves_other key sd ed now u₂ st₂ e b he
      exact ih _ _ (p₁.2.trans (hc.trans p₂.2.symm)) (p₁.1.trans (hr.trans p₂.1.symm))

theorem batchFold_keys {Json : Type} (key : String) (sd ed : Option String) (now : Nat)
    (u : String → FetchResponse Json) :
    ∀ (ids : List String) (st : BatchState Json),
      ((st.results.map Prod.fst).Nodup →
        (((ids.map BatchElem.str).foldl (batchStep key sd ed now u) st).results.map
          Prod.fst).Nodup) ∧
      ∀ b, (b ∈ ((ids.map BatchElem.str).foldl (batchStep key sd ed now u) st).results.map
          Prod.fst ↔
        b ∈ st.results.map Prod.fst ∨ (b ≠ "" ∧ ∃ s ∈ ids, jsTrim s = b)) := by
  intro ids
  induction ids with
  | nil =>
    intro st
    exact ⟨fun h => h, fun b => by simp⟩
  | cons s rest ih =>
    intro st
    rw [List.map_cons, List.foldl_cons]
    by_cases hblank : jsTrim s = ""
    · rw [batchStep_blank key sd ed now u st s hblank]
      refine ⟨(ih st).1, fun b => ?_⟩
      rw [(ih st).2 b]
      constructor
      · rintro (h | ⟨hne, x, hx, hpx⟩)
        · exact Or.inl h
        · exact Or.inr ⟨hne, x, List.mem_cons_of_mem s hx, hpx⟩
      · rintro (h | ⟨hne, x, hx, hpx⟩)
        · exact Or.inl h
        · rcases List.mem_cons.1 hx with hxs | hxr
          · exact absurd (hpx.symm.trans (hxs ▸ hblank : jsTrim x = "")) hne
          · exact Or.inr ⟨hne, x, hxr, hpx⟩
    · obtain ⟨v, hv⟩ := batchStep_str_results key sd ed now u st s hblank
      have hmem : ∀ b, b ∈ (batchStep key sd ed now u st (BatchElem.str s)).results.map
          Prod.fst ↔ b ∈ st.results.map Prod.fst ∨ b = jsTrim s := by
        intro b
        rw [hv]
        exact setResult_mem_fst st.results (jsTrim s) v b
      constructor
      · intro h
        refine (ih _).1 ?_
        rw [hv]
        exact setResult_fst_nodup v h
      · intro b
        rw [(ih _).2 b, hmem b]
        constructor
        · rintro ((h | h) | ⟨hne, x, hx, hpx⟩)
          · exact Or.inl h
          · exact Or.inr ⟨h ▸ hblank, s, List.mem_cons_self s rest, h.symm⟩
          · exact Or.inr ⟨hne, x, List.mem_cons_of_mem s hx, hpx⟩
        · rintro (h | ⟨hne, x, hx, hpx⟩)
          · exact Or.inl (Or.inl h)
          · rcases List.mem_cons.1 hx with hxs | hxr
            · exact Or.inl (Or.inr (hxs ▸ hpx).symm)
            · exact Or.inr ⟨hne, x, hxr, hpx⟩

theorem fredSeriesHandler_cache_shape {Json : Type} (parse : String → Option Json)
    (key : String) (c : CacheStore Json) (now : Nat) (req : SingleReq)
    (upstream : FetchResponse Json) :
    (fredSeriesHandler parse key c now req upstream).cache = c ∨
    ∃ d, upstream = FetchResponse.ok d ∧
      (fredSeriesHandler parse key c now req upstream).cache =
        cset c (getCacheKey req.seriesId req.start_date req.end_date) ⟨d, now⟩ := by
  by_cases h1 : req.seriesId = ""
  · exact Or.inl (by simp [fredSeriesHandler, h1])
  · by_cases h2 : apiKeyInvalid key = true
    · exact Or.inl (by simp [fredSeriesHandler, h1, h2])
    · have h2f : apiKeyInvalid key = false := by simpa using h2
      cases hc : cget c (getCacheKey req.seriesId req.start_date req.end_date) with
      | some entry =>
        by_cases hf : now - entry.timestamp < CACHE_DURATION
        · exact Or.inl (by simp [fredSeriesHandler, h1, h2f, hc, hf])
        · cases hu : upstream with
          | ok d => exact Or.inr ⟨d, rfl, by simp [fredSeriesHandler, h1, h2f, hc, hf]⟩
          | httpError status body => exact Or.inl (by simp [fredSeriesHandler, h1, h2f, hc, hf])
          | transportError msg => exact Or.inl (by simp [fredSeriesHandler, h1, h2f, hc, hf])
      | none =>
        cases hu : upstream with
        | ok d => exact Or.inr ⟨d, rfl, by simp [fredSeriesHandler, h1, h2f, hc]⟩
        | httpError status body => exact Or.inl (by simp [fredSeriesHandler, h1, h2f, hc])
        | transportError msg => exact Or.inl (by simp [fredSeriesHandler, h1, h2f, hc])

theorem fredMultipleHandler_arr {Json : Type} (key : String) (sd ed : Option String)
    (c : CacheStore Json) (now : Nat) (u : String → FetchResponse Json) (ids : List String)
    (hne : ids ≠ []) (hkey : apiKeyInvalid key = false) :
    fredMultipleHandler key (BatchSeries.arr (ids.map BatchElem.str)) sd ed c now u =
      ⟨BatchResp.ok
          ((ids.map BatchElem.str).foldl (batchStep key sd ed now u) ⟨[], c, []⟩).results,
        ((ids.map BatchElem.str).foldl (batchStep key sd ed now u) ⟨[], c, []⟩).cache,
        ((ids.map BatchElem.str).foldl (batchStep key sd ed now u) ⟨[], c, []⟩).fetches⟩ := by
  have hlen : ((ids.map BatchElem.str).length = 0) = False := by
    simp [List.length_eq_zero, hne]
  have hany : (ids.map BatchElem.str).any BatchElem.isNonString = false := by
    simp [List.any_map, Function.comp, BatchElem.isNonString]
  simp [fredMultipleHandler, hlen, hkey, hany, hne]

/-! Claim theorems. -/

/-- Claim C4: the cache-key function is deterministic — equal arguments always
yield the same key — and an absent (undefined) start or end date is normalised
to the fixed sentinel string "none", so an omitted date and an
explicitly-undefined date (both `none` in the embedding, as they are the same
JavaScript value) produce identical keys. -/
theorem claim_C4_cache_key_deterministic :
    (∀ (a a' : String) (s s' e e' : Option String), a = a' → s = s' → e = e' →
      getCacheKey a s e = getCacheKey a' s' e') ∧
    (∀ (id : String) (ed : Option String),
      getCacheKey id none ed = id ++ "-" ++ "none" ++ "-" ++ dateKeyPart ed) ∧
    (∀ (id : String) (sd : Option String),
      getCacheKey id sd none = id ++ "-" ++ dateKeyPart sd ++ "-" ++ "none") ∧
    getCacheKey "GDP" none none = "GDP-none-none" := by
  refine ⟨?_, ?_, ?_, ?_⟩
  · intro a a' s s' e e' h1 h2 h3
    rw [h1, h2, h3]
  · intro id ed; rfl
  · intro id sd; rfl
  · rfl

/-- Witness for C4 at concrete inputs. -/
theorem claim_C4_witness :
    getCacheKey "GDP" (some "2020-01-01") none = getCacheKey "GDP" (some "2020-01-01") none ∧
    getCacheKey "GDP" none (some "2020-12-31") =
      "GDP" ++ "-" ++ "none" ++ "-" ++ dateKeyPart (some "2020-12-31") :=
  ⟨claim_C4_cache_key_deterministic.1 "GDP" "GDP" (some "2020-01-01") (some "2020-01-01")
      none none rfl rfl rfl,
    claim_C4_cache_key_deterministic.2.1 "GDP" (some "2020-12-31")⟩

/-- Claim C1: if an entry for a key was stored at time `T`, a single-series
lookup at `T + δ` with `δ < CACHE_DURATION` (5 minutes) returns exactly that
entry's payload, performs no upstream fetch and leaves the cache unchanged;
with `δ ≥ CACHE_DURATION` the handler proceeds to fetch (a fetch is recorded),
and the stale entry is not removed: the key is still present in the store
afterwards. -/
theorem claim_C1_ttl_cache_hit {Json : Type} (parse : String → Option Json) (key : String)
    (c : CacheStore Json) (req : SingleReq) (upstream : FetchResponse Json)
    (entry : CacheEntry Json) (T δ : Nat)
    (hid : req.seriesId ≠ "") (hkey : apiKeyInvalid key = false)
    (hc : cget c (getCacheKey req.seriesId req.start_date req.end_date) = some entry)
    (hT : entry.timestamp = T) :
    (δ < CACHE_DURATION →
      fredSeriesHandler parse key c (T + δ) req upstream =
        ⟨SingleResp.okPayload entry.data, c, none⟩) ∧
    (CACHE_DURATION ≤ δ →
      (fredSeriesHandler parse key c (T + δ) req upstream).fetch.isSome = true ∧
      (cget (fredSeriesHandler parse key c (T + δ) req upstream).cache
        (getCacheKey req.seriesId req.start_date req.end_date)).isSome = true) := by
  have hsub : T + δ - entry.timestamp = δ := by
    rw [hT]; omega
  constructor
  · intro h
    simp [fredSeriesHandler, hid, hkey, hc, hsub, h]
  · intro h
    have hnf : ¬ (T + δ - entry.timestamp < CACHE_DURATION) := by
      rw [hsub]; omega
    cases upstream with
    | ok d =>
      constructor
      · simp [fredSeriesHandler, hid, hkey, hc, hnf]
      · simp [fredSeriesHandler, hid, hkey, hc, hnf, cget_cset_self]
    | httpError status body =>
      constructor
      · simp [fredSeriesHandler, hid, hkey, hc, hnf]
      · simp [fredSeriesHandler, hid, hkey, hc, hnf]
    | transportError msg =>
      constructor
      · simp [fredSeriesHandler, hid, hkey, hc, hnf]
      · simp [fredSeriesHandler, hid, hkey, hc, hnf]

/-- Witness for C1: a concrete store, a fresh lookup at `δ = 1000` and a stale
lookup at `δ = CACHE_DURATION`. -/
theorem claim_C1_witness :
    ((1000 < CACHE_DURATION →
      fredSeriesHandler (fun _ => (none : Option Nat)) "k"
        [(getCacheKey "GDP" none none, ⟨7, 100⟩)] (100 + 1000) ⟨"GDP", none, none, none⟩
        (FetchResponse.transportError "x") =
        ⟨SingleResp.okPayload 7, [(getCacheKey "GDP" none none, ⟨7, 100⟩)], none⟩) ∧
    (CACHE_DURATION ≤ 1000 →
      (fredSeriesHandler (fun _ => (none : Option Nat)) "k"
        [(getCacheKey "GDP" none none, ⟨7, 100⟩)] (100 + 1000) ⟨"GDP", none, none, none⟩
        (FetchResponse.transportError "x")).fetch.isSome = true ∧
      (cget (fredSeriesHandler (fun _ => (none : Option Nat)) "k"
        [(getCacheKey "GDP" none none, ⟨7, 100⟩)] (100 + 1000) ⟨"GDP", none, none, none⟩
        (FetchResponse.transportError "x")).cache
        (getCacheKey "GDP" none none)).isSome = true)) :=
  claim_C1_ttl_cache_hit (fun _ => none) "k" [(getCacheKey "GDP" none none, ⟨7, 100⟩)]
    ⟨"GDP", none, none, none⟩ (FetchResponse.transportError "x") ⟨7, 100⟩ 100 1000
    (by decide) (by decide) rfl rfl

/-- Claim C5: when the single-series upstream fetch comes back with a non-ok
HTTP status, the handler's response carries the upstream's original status
code unmodified, and its details field is the body parsed as JSON when the
parse succeeds, or the raw response text when the parse fails; the cache is
untouched and the issued request is recorded. The hypothesis `hmiss` says no
fresh entry was available (otherwise no fetch happens at all). -/
theorem claim_C5_upstream_error_passthrough {Json : Type} (parse : String → Option Json)
    (key : String) (c : CacheStore Json) (now : Nat) (req : SingleReq)
    (status : Nat) (body : String)
    (hid : req.seriesId ≠ "") (hkey : apiKeyInvalid key = false)
    (hmiss : ∀ entry, cget c (getCacheKey req.seriesId req.start_date req.end_date) =
      some entry → ¬ now - entry.timestamp < CACHE_DURATION) :
    (parse body = none →
      fredSeriesHandler parse key c now req (FetchResponse.httpError status body) =
        ⟨SingleResp.upstreamError status
            ("Failed to fetch data from FRED for series " ++ req.seriesId)
            (ErrorDetails.raw body), c,
          some ⟨req.seriesId, key, req.sort_order.getD "desc", req.start_date,
            req.end_date⟩⟩) ∧
    (∀ j, parse body = some j →
      fredSeriesHandler parse key c now req (FetchResponse.httpError status body) =
        ⟨SingleResp.upstreamError status
            ("Failed to fetch data from FRED for series " ++ req.seriesId)
            (ErrorDetails.parsed j), c,
          some ⟨req.seriesId, key, req.sort_order.getD "desc", req.start_date,
            req.end_date⟩⟩) := by
  cases hc : cget c (getCacheKey req.seriesId req.start_date req.end_date) with
  | some entry =>
    have hnf := hmiss entry hc
    constructor
    · intro hp
      simp [fredSeriesHandler, hid, hkey, hc, hnf, hp]
    · intro j hp
      simp [fredSeriesHandler, hid, hkey, hc, hnf, hp]
  | none =>
    constructor
    · intro hp
      simp [fredSeriesHandler, hid, hkey, hc, hp]
    · intro j hp
      simp [fredSeriesHandler, hid, hkey, hc, hp]

/-- Witness for C5: a 404 whose body does not parse, against an empty cache. -/
theorem claim_C5_witness :
    fredSeriesHandler (fun t => if t = "x" then some 1 else (none : Option Nat)) "k" [] 0
      ⟨"GDP", none, none, none⟩ (FetchResponse.httpError 404 "oops") =
      ⟨SingleResp.upstreamError 404 ("Failed to fetch data from FRED for series " ++ "GDP")
          (ErrorDetails.raw "oops"), [],
        some ⟨"GDP", "k", "desc", none, none⟩⟩ :=
  (claim_C5_upstream_error_passthrough (fun t => if t = "x" then some 1 else none) "k" [] 0
      ⟨"GDP", none, none, none⟩ 404 "oops" (by decide) (by decide)
      (fun entry h => Option.noConfusion h)).1 (by decide)

/-- Claim C8: the cache key does not depend on `sort_order`. A payload fetched
under sort order `o₁` is stored under a key containing only (id, start, end),
and a later request identical except for its sort order `o₂` is — while the
entry is fresh — answered from that entry with no upstream call. -/
theorem claim_C8_sort_order_not_in_key {Json : Type} (parse : String → Option Json)
    (key : String) (c : CacheStore Json) (id : String) (sd ed : Option String)
    (o₁ o₂ : Option String) (d : Json) (now now2 : Nat)
    (upstream2 : FetchResponse Json)
    (hid : id ≠ "") (hkey : apiKeyInvalid key = false)
    (hmiss : cget c (getCacheKey id sd ed) = none)
    (hfresh : now2 - now < CACHE_DURATION) :
    (fredSeriesHandler parse key c now ⟨id, sd, ed, o₁⟩ (FetchResponse.ok d)).fetch =
      some ⟨id, key, o₁.getD "desc", sd, ed⟩ ∧
    fredSeriesHandler parse key
        (fredSeriesHandler parse key c now ⟨id, sd, ed, o₁⟩ (FetchResponse.ok d)).cache
        now2 ⟨id, sd, ed, o₂⟩ upstream2 =
      ⟨SingleResp.okPayload d,
        (fredSeriesHandler parse key c now ⟨id, sd, ed, o₁⟩ (FetchResponse.ok d)).cache,
        none⟩ := by
  have h1 : fredSeriesHandler parse key c now ⟨id, sd, ed, o₁⟩ (FetchResponse.ok d) =
      ⟨SingleResp.okPayload d, cset c (getCacheKey id sd ed) ⟨d, now⟩,
        some ⟨id, key, o₁.getD "desc", sd, ed⟩⟩ := by
    simp [fredSeriesHandler, hid, hkey, hmiss]
  constructor
  · rw [h1]
  · rw [h1]
    simp [fredSeriesHandler, hid, hkey, cget_cset_self, hfresh]

/-- Witness for C8: fetch under sort order "asc", answered from cache under
sort order "desc". -/
theorem claim_C8_witness :
    (fredSeriesHandler (fun _ => (none : Option Nat)) "k" [] 0
        ⟨"GDP", none, none, some "asc"⟩ (FetchResponse.ok 5)).fetch =
      some ⟨"GDP", "k", "asc", none, none⟩ ∧
    fredSeriesHandler (fun _ => (none : Option Nat)) "k"
        (fredSeriesHandler (fun _ => (none : Option Nat)) "k" [] 0
          ⟨"GDP", none, none, some "asc"⟩ (FetchResponse.ok 5)).cache
        1 ⟨"GDP", none, none, some "desc"⟩ (FetchResponse.httpError 500 "e") =
      ⟨SingleResp.okPayload 5,
        (fredSeriesHandler (fun _ => (none : Option Nat)) "k" [] 0
          ⟨"GDP", none, none, some "asc"⟩ (FetchResponse.ok 5)).cache,
        none⟩ :=
  claim_C8_sort_order_not_in_key (fun _ => none) "k" [] "GDP" none none (some "asc")
    (some "desc") 5 0 1 (FetchResponse.httpError 500 "e") (by decide) (by decide) rfl
    (by decide)

/-- Claim C9: neither an upstream HTTP error nor a transport error ever writes
to the cache. For the single-series handler and for every batch
per-identifier task, the resulting cache is either unchanged, or the outcome
was a successful fetch and the write is exactly the write-through of that
success under the request's cache key. -/
theorem claim_C9_errors_never_write_cache (Json : Type) :
    (∀ (parse : String → Option Json) (key : String) (c : CacheStore Json) (now : Nat)
      (req : SingleReq) (upstream : FetchResponse Json),
      (fredSeriesHandler parse key c now req upstream).cache = c ∨
      ∃ d, upstream = FetchResponse.ok d ∧
        (fredSeriesHandler parse key c now req upstream).cache =
          cset c (getCacheKey req.seriesId req.start_date req.end_date) ⟨d, now⟩) ∧
    (∀ (key : String) (sd ed : Option String) (now : Nat)
      (u : String → FetchResponse Json) (st : BatchState Json) (e : BatchElem),
      (batchStep key sd ed now u st e).cache = st.cache ∨
      ∃ s d, e = BatchElem.str s ∧ u (jsTrim s) = FetchResponse.ok d ∧
        (batchStep key sd ed now u st e).cache =
          cset st.cache (getCacheKey (jsTrim s) sd ed) ⟨d, now⟩) :=
  ⟨fun parse key c now req upstream =>
      fredSeriesHandler_cache_shape parse key c now req upstream,
    fun key sd ed now u st e => batchStep_cache_shape key sd ed now u st e⟩

/-- Claim C6 evaluation: the claim says a 400 is returned whenever `series`
is missing, not a list, or an empty list. The code does return 400 for a
falsy `series` and for an empty array, but for a truthy non-array value the
line-107 log `series.join(', ')` throws a TypeError before the validation
check runs, so no 400 (indeed no response) is produced — the code diverges
from the claim on that input. -/
theorem claim_C6_nonarray_throws_before_validation :
    (@fredMultipleHandler Nat "valid-key" BatchSeries.notArrayTruthy none none [] 0
        (fun _ => FetchResponse.transportError "unused")).resp =
      BatchResp.handlerThrew "series.join is not a function" ∧
    (@fredMultipleHandler Nat "valid-key" BatchSeries.missing none none [] 0
        (fun _ => FetchResponse.transportError "unused")).resp = BatchResp.badRequest ∧
    (@fredMultipleHandler Nat "valid-key" (BatchSeries.arr []) none none [] 0
        (fun _ => FetchResponse.transportError "unused")).resp = BatchResp.badRequest :=
  ⟨rfl, rfl, rfl⟩

/-- Claim C7: if the credential is not configured, the batch handler fails
with the configuration error before any per-identifier task is spawned — no
upstream request is recorded and the cache is untouched — and conversely a
batch run that issued any upstream request had a configured credential. -/
theorem claim_C7_batch_config_failfast {Json : Type} (key : String) (series : BatchSeries)
    (sd ed : Option String) (c : CacheStore Json) (now : Nat)
    (u : String → FetchResponse Json) :
    (apiKeyInvalid key = true → ∀ elems, series = BatchSeries.arr elems → elems ≠ [] →
      fredMultipleHandler key series sd ed c now u = ⟨BatchResp.configError, c, []⟩) ∧
    ((fredMultipleHandler key series sd ed c now u).fetches ≠ [] →
      apiKeyInvalid key = false) := by
  constructor
  · intro hk elems hs hne
    subst hs
    have hlen : (elems.length = 0) = False := by
      simp [List.length_eq_zero, hne]
    simp [fredMultipleHandler, hlen, hne, hk]
  · intro hf
    cases hk : apiKeyInvalid key with
    | false => rfl
    | true =>
      exfalso
      apply hf
      cases series with
      | missing => rfl
      | notArrayTruthy => rfl
      | arr elems =>
        by_cases hlen : elems.length = 0
        · simp [fredMultipleHandler, hlen]
        · simp [fredMultipleHandler, hlen, hk]

/-- Witness for C7: the placeholder key is an unconfigured credential; the
batch with one identifier is rejected with the configuration error, with no
fetch and no cache write. -/
theorem claim_C7_witness :
    @fredMultipleHandler Nat PLACEHOLDER_API_KEY (BatchSeries.arr [BatchElem.str "GDP"])
        none none [] 0 (fun _ => FetchResponse.ok 1) =
      ⟨BatchResp.configError, [], []⟩ :=
  (claim_C7_batch_config_failfast PLACEHOLDER_API_KEY
      (BatchSeries.arr [BatchElem.str "GDP"]) none none [] 0 (fun _ => FetchResponse.ok 1)).1
    (by decide) [BatchElem.str "GDP"] rfl (List.cons_ne_nil _ _)

/-- Claim C10: a batch input that passes upfront validation (non-empty array)
but contains a non-string element makes that element's task throw at
`.trim()`; the rejection propagates through `Promise.all` and the whole
request fails with the outer catch's 500 internal error instead of producing
a per-identifier results object. -/
theorem claim_C10_non_string_rejects_whole_batch :
    (@fredMultipleHandler Nat "valid-key"
        (BatchSeries.arr [BatchElem.str "GDP", BatchElem.nonString]) none none [] 0
        (fun _ => FetchResponse.ok 1)).resp =
      BatchResp.internalError "Internal server error while processing multiple series"
        "seriesIdUntrimmed.trim is not a function" := rfl

/-- Claim C3: for a batch whose `series` array is a non-empty list of strings
(with a configured credential), the handler returns 200 with a results object
whose keys are exactly the distinct trimmed non-blank identifiers: the key
list has no duplicates, and a key is present iff it is non-empty and is the
trim of some input identifier — so blank identifiers contribute no entry. -/
theorem claim_C3_batch_completeness {Json : Type} (key : String) (sd ed : Option String)
    (c : CacheStore Json) (now : Nat) (u : String → FetchResponse Json)
    (ids : List String) (hne : ids ≠ []) (hkey : apiKeyInvalid key = false) :
    ∃ rs, (fredMultipleHandler key (BatchSeries.arr (ids.map BatchElem.str))
        sd ed c now u).resp = BatchResp.ok rs ∧
      (rs.map Prod.fst).Nodup ∧
      ∀ b, (b ∈ rs.map Prod.fst ↔ b ≠ "" ∧ ∃ s ∈ ids, jsTrim s = b) := by
  rw [fredMultipleHandler_arr key sd ed c now u ids hne hkey]
  refine ⟨_, rfl, ?_, ?_⟩
  · exact (batchFold_keys key sd ed now u ids ⟨[], c, []⟩).1 (by simp)
  · intro b
    rw [(batchFold_keys key sd ed now u ids ⟨[], c, []⟩).2 b]
    simp

/-- Witness for C3: the batch `["GDP", " "]` yields exactly the key `GDP`. -/
theorem claim_C3_witness :
    ∃ rs, (@fredMultipleHandler Nat "k" (BatchSeries.arr (["GDP", " "].map BatchElem.str))
        none none [] 0 (fun _ => FetchResponse.ok 1)).resp = BatchResp.ok rs ∧
      (rs.map Prod.fst).Nodup ∧
      ∀ b, (b ∈ rs.map Prod.fst ↔ b ≠ "" ∧ ∃ s ∈ ["GDP", " "], jsTrim s = b) :=
  claim_C3_batch_completeness "k" none none [] 0 (fun _ => FetchResponse.ok 1)
    ["GDP", " "] (by decide) (by decide)

/-- Claim C2: once a batch of string identifiers passes upfront validation
(non-empty array, configured credential), the request as a whole succeeds
with a per-identifier results object; changing the upstream outcomes of
every other identifier — including making them fail — never changes the
entry recorded for an identifier `b` (the two runs below agree at `b`
whenever their upstream oracles agree at `b`); and every non-blank
identifier has its own entry. -/
theorem claim_C2_batch_isolation {Json : Type} (key : String) (sd ed : Option String)
    (c : CacheStore Json) (now : Nat) (u₁ u₂ : String → FetchResponse Json)
    (ids : List String) (b : String)
    (hne : ids ≠ []) (hkey : apiKeyInvalid key = false) (hb : u₁ b = u₂ b) :
    ∃ rs₁ rs₂,
      (fredMultipleHandler key (BatchSeries.arr (ids.map BatchElem.str))
        sd ed c now u₁).resp = BatchResp.ok rs₁ ∧
      (fredMultipleHandler key (BatchSeries.arr (ids.map BatchElem.str))
        sd ed c now u₂).resp = BatchResp.ok rs₂ ∧
      lookupEntry rs₁ b = lookupEntry rs₂ b ∧
      (∀ s ∈ ids, jsTrim s ≠ "" → (lookupEntry rs₁ (jsTrim s)).isSome = true) := by
  rw [fredMultipleHandler_arr key sd ed c now u₁ ids hne hkey,
    fredMultipleHandler_arr key sd ed c now u₂ ids hne hkey]
  refine ⟨_, _, rfl, rfl, ?_, ?_⟩
  · exact (batchFold_isolation key sd ed now u₁ u₂ b hb (ids.map BatchElem.str)
      ⟨[], c, []⟩ ⟨[], c, []⟩ rfl rfl).1
  · intro s hs hns
    rw [lookupEntry_isSome_iff]
    rw [(batchFold_keys key sd ed now u₁ ids ⟨[], c, []⟩).2 (jsTrim s)]
    exact Or.inr ⟨hns, s, hs, rfl⟩

/-- Witness for C2: a two-identifier batch where the second run makes the
other identifier CPI fail upstream; the entry for GDP is unaffected and both
identifiers have entries. -/
theorem claim_C2_witness :
    ∃ rs₁ rs₂,
      (@fredMultipleHandler Nat "k" (BatchSeries.arr (["GDP", "CPI"].map BatchElem.str))
        none none [] 0 (fun _ => FetchResponse.ok 1)).resp = BatchResp.ok rs₁ ∧
      (@fredMultipleHandler Nat "k" (BatchSeries.arr (["GDP", "CPI"].map BatchElem.str))
        none none [] 0
        (fun s => if s = "CPI" then FetchResponse.httpError 404 "not found"
          else FetchResponse.ok 1)).resp = BatchResp.ok rs₂ ∧
      lookupEntry rs₁ "GDP" = lookupEntry rs₂ "GDP" ∧
      (∀ s ∈ ["GDP", "CPI"], jsTrim s ≠ "" → (lookupEntry rs₁ (jsTrim s)).isSome = true) :=
  claim_C2_batch_isolation "k" none none [] 0 (fun _ => FetchResponse.ok 1)
    (fun s => if s = "CPI" then FetchResponse.httpError 404 "not found"
      else FetchResponse.ok 1)
    ["GDP", "CPI"] "GDP" (by decide) (by decide) rfl
